import Mathlib

/-!
Verification development for the closed-loop test-generation repository.

The TypeScript sources are shallowly embedded: pure computations become Lean
functions, the in-memory keyed stores become association lists, external
collaborators (the LLM generation service, the two test runtimes, the file
system, `Date.now`, `uuid`) become explicit oracle records supplied as
arguments, and thrown JS exceptions become `Except String` error values.
Strings are modelled character-wise (JS `toLowerCase`, `includes`, `split`,
`trim` over the underlying character sequence).
-/

namespace TestGen

/-! ## JS string primitives, modelled character-wise -/

/-- JS `a || b` on strings: the empty string is falsy. -/
def jsOr (a b : String) : String := if a = "" then b else a

/-- Auxiliary scan for substring containment over character lists. -/
def strContainsAux (pat : List Char) : List Char → Bool
  | [] => pat.isEmpty
  | c :: rest => pat.isPrefixOf (c :: rest) || strContainsAux pat rest

/-- JS `s.includes(pat)`. -/
def strContains (s pat : String) : Bool := strContainsAux pat.data s.data

/-- JS `s.toLowerCase()` (ASCII, character-wise). -/
def toLowerStr (s : String) : String := String.mk (s.data.map Char.toLower)

/-- JS `s.toUpperCase()` (ASCII, character-wise). -/
def toUpperStr (s : String) : String := String.mk (s.data.map Char.toUpper)

/-- JS `s.trim()`: strip whitespace from both ends. -/
def trimStr (s : String) : String :=
  String.mk (((s.data.dropWhile Char.isWhitespace).reverse.dropWhile Char.isWhitespace).reverse)

/-- Split a character list at every occurrence of the separator character. -/
def splitOnChar (sep : Char) : List Char → List (List Char)
  | [] => [[]]
  | c :: rest =>
    let r := splitOnChar sep rest
    if c = sep then [] :: r
    else
      match r with
      | h :: t => (c :: h) :: t
      | [] => [[c]]

/-- JS `s.split('\n')`. -/
def splitLines (s : String) : List String := (splitOnChar '\n' s.data).map String.mk

/-- JS `lines.join('\n')`. -/
def joinWithNl : List String → String
  | [] => ""
  | [s] => s
  | s :: rest => s ++ "\n" ++ joinWithNl rest

/-- Number of occurrences of a character, JS `(s.match(/c/g) || []).length`. -/
def countChar (s : String) (c : Char) : Nat := (s.data.filter (fun d => d = c)).length

/-- JS template interpolation of a possibly-undefined string value. -/
def jsStr (o : Option String) : String :=
  match o with
  | some s => s
  | none => "undefined"

/-! ## Core data model (src/types/index.ts) -/

/-- Stage values of `WorkflowState.stage`. -/
inductive Stage
  | parsing | generating | executing | fixing | validating | completed | failed
deriving DecidableEq, Repr

/-- The `type` field of a `TestCase`. -/
inductive TestKind
  | junit | jest | cypress
deriving DecidableEq, Repr

/-- `TestCase` from src/types/index.ts; `generatedAt` is a tick count. -/
structure TestCase where
  id : String
  name : String
  description : String
  type : TestKind
  code : String
  targetFunction : String
  filePath : String
  generatedAt : Nat
deriving DecidableEq, Repr

/-- `TestResult` from src/types/index.ts. -/
structure TestResult where
  testCaseId : String
  passed : Bool
  executionTime : Nat
  error : Option String
  stackTrace : Option String
  output : Option String
  timestamp : Nat
deriving DecidableEq, Repr

/-- `BugFix` from src/types/index.ts (`retestResult` is never written by the
modelled code paths and is omitted). -/
structure BugFix where
  id : String
  testCaseId : String
  testResultId : String
  description : String
  originalCode : String
  fixedCode : String
  filePath : String
  lineStart : Nat
  lineEnd : Nat
  applied : Bool
  appliedAt : Option Nat
  validated : Bool
deriving DecidableEq, Repr

/-- `WorkflowState` from src/types/index.ts, restricted to the fields the
workflow writes (the optional metadata fields are never assigned). -/
structure WorkflowState where
  stage : Stage
  testCases : List TestCase
  testResults : List TestResult
  bugFixes : List BugFix
  errors : List String
deriving DecidableEq, Repr

/-! ## Keyed stores (src/data/bugFixStore.ts, TestCaseStore)

A JS `Map` keyed by string: `set` overwrites the first entry with the key in
place, otherwise appends; `get` returns the first entry's value. -/

/-- JS `Map.set`. -/
def storeSet {α : Type} : List (String × α) → String → α → List (String × α)
  | [], k, v => [(k, v)]
  | e :: rest, k, v => if e.1 = k then (k, v) :: rest else e :: storeSet rest k v

/-- JS `Map.get`. -/
def storeGet {α : Type} : List (String × α) → String → Option α
  | [], _ => none
  | e :: rest, k => if e.1 = k then some e.2 else storeGet rest k

/-- `TestCaseStore.storeTestResult`: stamps the current time onto the result
and keys it by `testCaseId` (the input's `timestamp` field plays the role of
the omitted field of `Omit<TestResult, 'timestamp'>` and is overwritten). -/
def storeTestResult (m : List (String × TestResult)) (now : Nat) (result : TestResult) :
    List (String × TestResult) :=
  storeSet m result.testCaseId { result with timestamp := now }

/-- `TestCaseStore.getTestResult`. -/
def getTestResult (m : List (String × TestResult)) (testCaseId : String) : Option TestResult :=
  storeGet m testCaseId

theorem storeGet_storeSet_same {α : Type} (m : List (String × α)) (k : String) (v : α) :
    storeGet (storeSet m k v) k = some v := by
  induction m with
  | nil => simp [storeSet, storeGet]
  | cons e rest ih =>
    by_cases h : e.1 = k
    · simp [storeSet, storeGet, h]
    · simp [storeSet, storeGet, h, ih]

theorem storeGet_storeSet_other {α : Type} (m : List (String × α)) (k k' : String) (v : α)
    (hne : k' ≠ k) : storeGet (storeSet m k v) k' = storeGet m k' := by
  induction m with
  | nil => simp [storeSet, storeGet]; exact fun h => hne h.symm
  | cons e rest ih =>
    by_cases h : e.1 = k
    · simp only [storeSet, if_pos h, storeGet]
      rw [if_neg (fun hc => hne hc.symm), if_neg (by rw [h]; exact fun hc => hne hc.symm)]
    · simp only [storeSet, if_neg h, storeGet]
      by_cases h2 : e.1 = k'
      · simp [h2]
      · simp [h2, ih]

/-- One `storeTestResult` call: a timestamp paired with the incoming result. -/
def applyStoreCall (m : List (String × TestResult)) (c : Nat × TestResult) :
    List (String × TestResult) :=
  storeTestResult m c.1 c.2

/-- C9: the result store keeps exactly one `TestResult` per test case id.
After any sequence of `storeTestResult` calls, `getTestResult id` is the most
recently stored result for that id (with its stored timestamp), and falls back
to the prior store contents when no call targeted that id — in particular a
store under one id leaves every other id untouched. -/
theorem c9_store_retains_latest_result_per_id (init : List (String × TestResult))
    (calls : List (Nat × TestResult)) (testCaseId : String) :
    getTestResult (calls.foldl applyStoreCall init) testCaseId =
      match calls.reverse.find? (fun c => c.2.testCaseId == testCaseId) with
      | some c => some { c.2 with timestamp := c.1 }
      | none => getTestResult init testCaseId := by
  induction calls generalizing init with
  | nil => simp
  | cons c cs ih =>
    rw [List.foldl_cons, ih, List.reverse_cons, List.find?_append]
    cases hf : cs.reverse.find? (fun c => c.2.testCaseId == testCaseId) with
    | some c' => simp [hf]
    | none =>
      simp only [hf, Option.none_or]
      by_cases h : c.2.testCaseId = testCaseId
      · simp only [List.find?, h, beq_self_eq_true, applyStoreCall, storeTestResult,
          getTestResult]
        rw [← h, storeGet_storeSet_same]
      · have hb : (c.2.testCaseId == testCaseId) = false := by
          simp [h]
        simp only [List.find?, hb, applyStoreCall, storeTestResult, getTestResult]
        rw [storeGet_storeSet_other]
        exact fun hc => h hc.symm

/-! ## Markdown-fence cleanup (autoFixAgent.ts)

The agent strips code fences from the generation service's response with
`replace(/<fence>(typescript|javascript|java|python)?\n?/g, '')` followed by
`replace(/<fence>\n?/g, '')` and `trim()`, where `<fence>` is three backticks.
Both global replaces scan left to right and resume after each match. -/

/-- Language names tried, in the regex's alternation order. -/
def fenceLangs : List (List Char) := ["typescript".data, "javascript".data, "java".data, "python".data]

/-- Drop the first matching language alternative, if any. -/
def dropLang (cs : List Char) : List Char :=
  match fenceLangs.find? (fun p => p.isPrefixOf cs) with
  | some p => cs.drop p.length
  | none => cs

/-- Drop one optional newline. -/
def dropNl : List Char → List Char
  | [] => []
  | c :: rest => if c = '\n' then rest else c :: rest

theorem dropLang_length_le (cs : List Char) : (dropLang cs).length ≤ cs.length := by
  unfold dropLang
  cases fenceLangs.find? (fun p => p.isPrefixOf cs) with
  | some p => simp
  | none => simp

theorem dropNl_length_le (cs : List Char) : (dropNl cs).length ≤ cs.length := by
  cases cs with
  | nil => simp [dropNl]
  | cons c rest =>
    by_cases h : c = '\n' <;> simp [dropNl, h]

/-- First global replace: remove every fence, an optional language word and an
optional trailing newline. -/
def removeFenceLang : List Char → List Char
  | [] => []
  | c :: rest =>
    if ("```".data).isPrefixOf (c :: rest) then
      removeFenceLang (dropNl (dropLang (rest.drop 2)))
    else c :: removeFenceLang rest
termination_by cs => cs.length
decreasing_by
  · have h1 := dropNl_length_le (dropLang (rest.drop 2))
    have h2 := dropLang_length_le (rest.drop 2)
    have h3 : (rest.drop 2).length ≤ rest.length := by
      simp only [List.length_drop]; omega
    simp only [List.length_cons]; omega
  · simp only [List.length_cons]; omega

/-- Second global replace: remove every remaining fence and an optional
trailing newline. -/
def removeFence : List Char → List Char
  | [] => []
  | c :: rest =>
    if ("```".data).isPrefixOf (c :: rest) then
      removeFence (dropNl (rest.drop 2))
    else c :: removeFence rest
termination_by cs => cs.length
decreasing_by
  · have h1 := dropNl_length_le (rest.drop 2)
    have h3 : (rest.drop 2).length ≤ rest.length := by
      simp only [List.length_drop]; omega
    simp only [List.length_cons]; omega
  · simp only [List.length_cons]; omega

/-- Fence cleanup applied to a generation-service response. -/
def cleanMarkdown (s : String) : String :=
  trimStr (String.mk (removeFence (removeFenceLang s.data)))

/-! ## Auto-fix agent (autoFixAgent.ts: fixTestCase, autoFixFailedTest)

Oracles: the three generation-service responses consumed by one
`autoFixFailedTest` call, the uuid for the stored `BugFix`, and the clock.
State: the test case store, the bug fix store and the file system, all keyed
maps. -/

/-- Collaborator responses and identities for one `autoFixFailedTest` call. -/
structure AutoFixEnv where
  analysisResponse : String
  testFixResponse : String
  sourceFixResponse : String
  freshId : String
  now : Nat

/-- The mutable state an `autoFixFailedTest` call touches. -/
structure FixStores where
  testCases : List (String × TestCase)
  bugFixes : List (String × BugFix)
  fileSystem : List (String × String)
deriving DecidableEq, Repr

/-- Deterministic "test is broken" signatures over the lowercased error text
(autoFixAgent.ts lines 408-420, everything after the service verdict). The
three conjunctions mirror the `&&` groupings of the source. -/
def testBrokenSignature (errorLower : String) : Bool :=
  strContains errorLower "import" ||
  strContains errorLower "cannot find" ||
  strContains errorLower "is not defined" ||
  strContains errorLower "typeerror" ||
  strContains errorLower "referenceerror" ||
  strContains errorLower "compilation failed" ||
  strContains errorLower "cannot be resolved" ||
  (strContains errorLower "package" && strContains errorLower "does not exist") ||
  (strContains errorLower "symbol" && strContains errorLower "cannot find") ||
  (strContains errorLower "class" && strContains errorLower "cannot be resolved") ||
  strContains errorLower "no such method" ||
  strContains errorLower "method not found"

/-- The full `shouldFixTest` decision: the service's textual verdict contains
"TEST", or the error text matches a broken-test signature. -/
def shouldFixTestB (analysis errorLower : String) : Bool :=
  strContains analysis "TEST" || testBrokenSignature errorLower

/-- `fixTestCase`: replace the stored test case's code in place (same id) with
the cleaned generation-service response. Returns the updated stores and the
updated test case. -/
def fixTestCase (env : AutoFixEnv) (stores : FixStores) (testCase : TestCase) :
    FixStores × TestCase :=
  let fixedTestCode := cleanMarkdown env.testFixResponse
  let updated := { testCase with code := fixedTestCode }
  ({ stores with testCases := storeSet stores.testCases updated.id updated }, updated)

/-- `autoFixFailedTest`: decide whether the test or the source is at fault and
produce a `BugFix`. Lookup failures propagate as errors; the classification is
the service verdict OR-ed with the deterministic signature check. -/
def autoFixFailedTest (env : AutoFixEnv) (stores : FixStores) (testResult : TestResult)
    (applyImmediately : Bool) : Except String (BugFix × FixStores) :=
  match storeGet stores.testCases testResult.testCaseId with
  | none => Except.error "Test case not found"
  | some testCase =>
    match storeGet stores.fileSystem testCase.filePath with
    | none => Except.error ("ENOENT: no such file or directory, open " ++ testCase.filePath)
    | some sourceCode =>
      let testCode := testCase.code
      let analysis := toUpperStr (trimStr env.analysisResponse)
      let errorLower := toLowerStr (testResult.error.getD "")
      if shouldFixTestB analysis errorLower then
        let fixRes := fixTestCase env stores testCase
        let stores1 := fixRes.1
        let updatedTc := fixRes.2
        let bf0 : BugFix :=
          { id := env.freshId
            testCaseId := testCase.id
            testResultId := testResult.testCaseId
            description := "Fixed test case - test was incorrectly written: " ++
              jsStr testResult.error
            originalCode := testCode
            fixedCode := updatedTc.code
            filePath := testCase.filePath
            lineStart := 0
            lineEnd := (splitLines testCode).length
            applied := false
            appliedAt := none
            validated := false }
        let bf := if applyImmediately then { bf0 with applied := true, appliedAt := some env.now }
                  else bf0
        Except.ok (bf, { stores1 with bugFixes := storeSet stores1.bugFixes bf.id bf })
      else
        let fixedCode := cleanMarkdown env.sourceFixResponse
        let bf0 : BugFix :=
          { id := env.freshId
            testCaseId := testCase.id
            testResultId := testResult.testCaseId
            description := "Auto-fix source code: " ++ jsStr testResult.error
            originalCode := sourceCode
            fixedCode := fixedCode
            filePath := testCase.filePath
            lineStart := 0
            lineEnd := (splitLines sourceCode).length
            applied := false
            appliedAt := none
            validated := false }
        let bf := if applyImmediately then { bf0 with applied := true, appliedAt := some env.now }
                  else bf0
        let stores1 :=
          if applyImmediately then
            { stores with fileSystem := storeSet stores.fileSystem testCase.filePath fixedCode }
          else stores
        Except.ok (bf, { stores1 with bugFixes := storeSet stores1.bugFixes bf.id bf })

/-- C2: when the failing result's error text matches a broken-test signature,
`autoFixFailedTest` fixes the test no matter what the service's SOURCE/TEST
verdict says (the `analysisResponse` oracle is arbitrary here): the stored
test case's code is replaced with the cleaned corrected test text, the
returned `BugFix` carries the old/new test text, and the file system — in
particular the source file — is left untouched. -/
theorem c2_signature_dominates_verdict (env : AutoFixEnv) (stores : FixStores)
    (testResult : TestResult) (applyImmediately : Bool) (tc : TestCase) (src : String)
    (htc : storeGet stores.testCases testResult.testCaseId = some tc)
    (hsrc : storeGet stores.fileSystem tc.filePath = some src)
    (hsig : testBrokenSignature (toLowerStr (testResult.error.getD "")) = true) :
    ∃ bf stores',
      autoFixFailedTest env stores testResult applyImmediately = Except.ok (bf, stores') ∧
      stores'.fileSystem = stores.fileSystem ∧
      storeGet stores'.testCases tc.id =
        some { tc with code := cleanMarkdown env.testFixResponse } ∧
      bf.originalCode = tc.code ∧
      bf.fixedCode = cleanMarkdown env.testFixResponse := by
  have hs : shouldFixTestB (toUpperStr (trimStr env.analysisResponse))
      (toLowerStr (testResult.error.getD "")) = true := by
    unfold shouldFixTestB
    rw [hsig]
    exact Bool.or_true _
  cases applyImmediately <;>
  · simp only [autoFixFailedTest, htc, hsrc, hs, if_true, Bool.false_eq_true, if_false]
    exact ⟨_, _, rfl, rfl, by simp [fixTestCase, storeGet_storeSet_same], rfl,
      by simp [fixTestCase]⟩

/-- Concrete sample objects for the auto-fix witnesses. -/
def tcW1 : TestCase := ⟨"tc-1", "t1", "d", TestKind.junit, "old test", "add", "Calc.java", 0⟩

def storesW1 : FixStores := ⟨[("tc-1", tcW1)], [], [("Calc.java", "class Calc {}")]⟩

def resW1 : TestResult := ⟨"tc-1", false, 3, some "error: cannot find symbol: Foo", none, none, 0⟩

def envW1 : AutoFixEnv := ⟨"SOURCE", "fixed test", "fixed source", "bf-1", 7⟩

/-- Witness for C2 at a concrete store, file system and failing result whose
error text contains an unresolved-symbol signature, with a service verdict
that explicitly says SOURCE. -/
theorem c2_signature_dominates_verdict_witness :
    ∃ bf stores',
      autoFixFailedTest envW1 storesW1 resW1 false = Except.ok (bf, stores') ∧
      stores'.fileSystem = storesW1.fileSystem ∧
      storeGet stores'.testCases tcW1.id =
        some { tcW1 with code := cleanMarkdown envW1.testFixResponse } ∧
      bf.originalCode = tcW1.code ∧
      bf.fixedCode = cleanMarkdown envW1.testFixResponse :=
  c2_signature_dominates_verdict envW1 storesW1 resW1 false tcW1 "class Calc {}"
    (by decide) (by decide) (by decide)

/-- C7: whenever the classification lands on "test is broken" (for any reason:
the service verdict contains TEST or a signature fires), the stored test case
is replaced in place — same id, new code — and the returned `BugFix` points at
the source file path while carrying the old and corrected test text. -/
theorem c7_broken_test_replaced_in_place (env : AutoFixEnv) (stores : FixStores)
    (testResult : TestResult) (applyImmediately : Bool) (tc : TestCase) (src : String)
    (htc : storeGet stores.testCases testResult.testCaseId = some tc)
    (hsrc : storeGet stores.fileSystem tc.filePath = some src)
    (hclass : shouldFixTestB (toUpperStr (trimStr env.analysisResponse))
      (toLowerStr (testResult.error.getD "")) = true) :
    ∃ bf stores',
      autoFixFailedTest env stores testResult applyImmediately = Except.ok (bf, stores') ∧
      storeGet stores'.testCases tc.id =
        some { tc with code := cleanMarkdown env.testFixResponse } ∧
      ({ tc with code := cleanMarkdown env.testFixResponse } : TestCase).id = tc.id ∧
      bf.filePath = tc.filePath ∧
      bf.originalCode = tc.code ∧
      bf.fixedCode = cleanMarkdown env.testFixResponse := by
  cases applyImmediately <;>
  · simp only [autoFixFailedTest, htc, hsrc, hclass, if_true, Bool.false_eq_true, if_false]
    exact ⟨_, _, rfl, by simp [fixTestCase, storeGet_storeSet_same], trivial, rfl, rfl,
      by simp [fixTestCase]⟩

/-- Concrete sample objects for the C7 witness: the service verdict is TEST
while the error text matches no signature. -/
def tcW2 : TestCase := ⟨"tc-2", "t2", "d", TestKind.jest, "old jest test", "sum", "utils.ts", 0⟩

def storesW2 : FixStores := ⟨[("tc-2", tcW2)], [], [("utils.ts", "export const sum = 0")]⟩

def resW2 : TestResult := ⟨"tc-2", false, 4, some "expected 2 but got 3", none, none, 0⟩

def envW2 : AutoFixEnv := ⟨" test ", "fixed test", "fixed source", "bf-2", 9⟩

/-- Witness for C7 at a concrete input. -/
theorem c7_broken_test_replaced_in_place_witness :
    ∃ bf stores',
      autoFixFailedTest envW2 storesW2 resW2 true = Except.ok (bf, stores') ∧
      storeGet stores'.testCases tcW2.id =
        some { tcW2 with code := cleanMarkdown envW2.testFixResponse } ∧
      ({ tcW2 with code := cleanMarkdown envW2.testFixResponse } : TestCase).id = tcW2.id ∧
      bf.filePath = tcW2.filePath ∧
      bf.originalCode = tcW2.code ∧
      bf.fixedCode = cleanMarkdown envW2.testFixResponse :=
  c7_broken_test_replaced_in_place envW2 storesW2 resW2 true tcW2 "export const sum = 0"
    (by decide) (by decide) (by decide)

/-! ## Jest executor (jestExecutor.ts: executeJestTest)

Oracles: the outcome of the `npx jest --json` child process (stdout/stderr, or
a thrown error), and the outcome of `JSON.parse(stdout)` (`none` when parsing
throws). The parsed report is modelled with the fields the executor reads. -/

/-- A thrown child-process error (its falsy/absent string fields are ""). -/
structure ExecFailure where
  stdout : String
  stderr : String
  message : String
  stack : String
deriving DecidableEq, Repr

/-- One entry of `assertionResults` in the Jest JSON report. -/
structure AssertionResult where
  status : String
  failureMessages : Option (List String)
deriving DecidableEq, Repr

/-- One entry of `testResults` in the Jest JSON report. -/
structure SuiteResult where
  assertionResults : Option (List AssertionResult)
deriving DecidableEq, Repr

/-- The fields of the Jest JSON report the executor reads. -/
structure JestReport where
  numFailedTests : Nat
  testResults : List SuiteResult
deriving DecidableEq, Repr

/-- Collaborator outcomes for one `executeJestTest` call. -/
structure JestEnv where
  execOutcome : Except ExecFailure (String × String)
  parsed : Option JestReport
  elapsed : Nat
  now : Nat

/-- `executeJestTest`: run the Jest command, interpret its JSON report if it
parses, fall back to stderr when it does not, and convert a thrown process
error into a failed result. `passed` starts true and is cleared only by a
positive `numFailedTests` or by non-empty stderr on a parse failure. -/
def executeJestTest (env : JestEnv) (testCase : TestCase) : TestResult :=
  match env.execOutcome with
  | Except.error ex =>
      ⟨testCase.id, false, env.elapsed, some ex.message, some ex.stack, none, env.now⟩
  | Except.ok (stdout, stderr) =>
      let res : Bool × Option String × Option String :=
        match env.parsed with
        | some report =>
          if 0 < report.numFailedTests then
            let failedTest :=
              (report.testResults.head?.bind (fun s => s.assertionResults)).bind
                (fun ars => ars.find? (fun a => a.status == "failed"))
            match failedTest with
            | some ft => (false, ft.failureMessages.bind List.head?,
                ft.failureMessages.map joinWithNl)
            | none => (false, none, none)
          else (true, none, none)
        | none =>
          if stderr ≠ "" then (false, some stderr, none) else (true, none, none)
      ⟨testCase.id, res.1, env.elapsed, res.2.1, res.2.2, some stdout, env.now⟩

/-- C10: when the Jest command completes without throwing, its stdout fails to
parse as the JSON report and stderr is empty, the returned result has
`passed = true` and no error — ambiguous output defaults to pass. -/
theorem c10_unparseable_stdout_defaults_to_pass (testCase : TestCase) (stdout : String)
    (elapsed now : Nat) :
    (executeJestTest ⟨Except.ok (stdout, ""), none, elapsed, now⟩ testCase).passed = true ∧
    (executeJestTest ⟨Except.ok (stdout, ""), none, elapsed, now⟩ testCase).error = none := by
  simp [executeJestTest]

/-! ## JUnit executor (junitExecutor.ts: executeJUnitTest)

Oracles: whether the standalone JUnit jar is available, the outcome of the
`javac` compilation step, and the outcome of the `java -jar` run step. The
pass/fail interpretation of the console output is modelled in full. -/

/-- JS `\w` on ASCII. -/
def isWordChar (c : Char) : Bool := c.isAlphanum || c = '_'

/-- Case-insensitive character comparison. -/
def lowerEq (c d : Char) : Bool := c.toLower = d.toLower

/-- After "test" and one word character: more word characters then "()". -/
def wordThenParens : List Char → Bool
  | '(' :: ')' :: _ => true
  | c :: rest => isWordChar c && wordThenParens rest
  | [] => false

/-- At least one word character, then `wordThenParens`. -/
def testSigAfter : List Char → Bool
  | c :: rest => isWordChar c && wordThenParens rest
  | [] => false

/-- Does `/test\w+\(\)/i` match at this position? -/
def matchesTestAt : List Char → Bool
  | t :: e :: s :: t2 :: rest =>
      lowerEq t 't' && lowerEq e 'e' && lowerEq s 's' && lowerEq t2 't' && testSigAfter rest
  | _ => false

/-- Does `/test\w+\(\)/i` match anywhere? -/
def hasTestMethodSig : List Char → Bool
  | [] => false
  | l@(_ :: rest) => matchesTestAt l || hasTestMethodSig rest

/-- Scan one line for "Exception" followed (with no newline between) by ✔. -/
def excScan : List Char → Bool
  | [] => false
  | l@(_ :: rest) =>
      (("Exception".data).isPrefixOf l && (l.drop 9).contains '✔') || excScan rest

/-- Does `/Exception.*✔/` match (the dot does not cross newlines)? -/
def regexExceptionCheck (s : String) : Bool :=
  (splitLines s).any (fun line => excScan line.data)

/-- Does `/^\s*at\s+\w+/` match this line? -/
def stackAtLine (line : String) : Bool :=
  match line.data.dropWhile Char.isWhitespace with
  | 'a' :: 't' :: c :: rest2 =>
      c.isWhitespace &&
        (match rest2.dropWhile Char.isWhitespace with
         | d :: _ => isWordChar d
         | [] => false)
  | _ => false

/-- The per-line error-pattern test of `extractErrorMessage`. -/
def errLineHit (line : String) : Bool :=
  strContains line "expected" || strContains line "actual" ||
  strContains line "AssertionError" || strContains line "Exception" ||
  strContains line "Error:" || strContains line "cannot find symbol" ||
  (strContains line "package" && strContains line "does not exist") ||
  (strContains line "class" && strContains line "cannot be resolved") ||
  strContains line "compilation failed" || strContains line "FAILED" ||
  stackAtLine line

/-- `extractErrorMessage`: collect matching lines plus up to three non-blank
context lines each, capped at 20 lines; otherwise fall back to the last 30
lines of output. -/
def extractErrorMessage (output : String) : String :=
  let lines := splitLines output
  let errorLines := (List.range lines.length).flatMap (fun i =>
    let line := lines.getD i ""
    if errLineHit line then
      line :: (List.range 3).filterMap (fun j =>
        let idx := i + j + 1
        if idx < lines.length ∧ trimStr (lines.getD idx "") ≠ "" then some (lines.getD idx "")
        else none)
    else [])
  if errorLines ≠ [] then joinWithNl (errorLines.take 20)
  else jsOr (joinWithNl (lines.drop (lines.length - 30)))
    "Test execution failed - see output for details"

/-- The pass/fail interpretation of the JUnit console output (success and
failure marks, explicit markers, and the invoked-test-method fallback),
returning `(passed, error, stackTrace)`. -/
def interpretJUnitOutput (stdout stderr : String) : Bool × Option String × Option String :=
  let outputText := stdout ++ stderr
  let successCount := countChar outputText '✔'
  let failureCount := countChar outputText '✘'
  let hasExplicitFailures :=
    strContains outputText "FAILED" || strContains outputText "✘" ||
    strContains outputText "AssertionError" || strContains outputText "AssertionFailedError" ||
    (strContains outputText "Exception" && !(regexExceptionCheck outputText))
  let hasSuccessIndicators :=
    strContains outputText "SUCCESS" ||
    strContains (toLowerStr outputText) "test run finished" ||
    strContains (toLowerStr outputText) "test successful" ||
    strContains (toLowerStr outputText) "tests successful" ||
    (decide (0 < successCount) && decide (failureCount = 0))
  let passed : Bool :=
    if decide (0 < failureCount) || hasExplicitFailures then false
    else if decide (0 < successCount) && decide (failureCount = 0) then true
    else if hasSuccessIndicators && !hasExplicitFailures then true
    else hasTestMethodSig outputText.data && !hasExplicitFailures
  if passed then (true, none, none)
  else
    let e0 := extractErrorMessage outputText
    let e1 := if e0 = "" ∨ e0.length < 20 then jsOr stderr (jsOr stdout "Test execution failed")
              else e0
    (false, some e1, some outputText)

/-- Collaborator outcomes for one `executeJUnitTest` call. -/
structure JUnitEnv where
  jar : Option String
  compileOutcome : Option ExecFailure
  runOutcome : Except ExecFailure (String × String)
  elapsed : Nat
  now : Nat

/-- The missing-jar error message. -/
def jarMissingError : String :=
  "JUnit jar not found and could not be downloaded. Please download junit-platform-console-standalone.jar and place it in the project root."

/-- The missing-jar stack text. -/
def jarMissingStack : String :=
  "JUnit dependencies are required for Java test execution. Download from: https://repo1.maven.org/maven2/org/junit/platform/junit-platform-console-standalone/1.10.0/junit-platform-console-standalone-1.10.0.jar"

/-- Build the final result from captured run output. -/
def finishJUnit (env : JUnitEnv) (testCase : TestCase) (stdout stderr : String) : TestResult :=
  let r := interpretJUnitOutput stdout stderr
  ⟨testCase.id, r.1, env.elapsed, r.2.1, r.2.2, some stdout, env.now⟩

/-- `executeJUnitTest`, instrumented with a flag recording whether the run
command was attempted. A missing jar short-circuits; a compilation failure
short-circuits with the compiler diagnostic; a thrown run command still has
its captured output interpreted unless both streams are empty. -/
def executeJUnitTestI (env : JUnitEnv) (testCase : TestCase) : TestResult × Bool :=
  match env.jar with
  | none =>
      (⟨testCase.id, false, env.elapsed, some jarMissingError, some jarMissingStack, none,
        env.now⟩, false)
  | some _ =>
    match env.compileOutcome with
    | some ce =>
      let compileError := jsOr ce.stderr (jsOr ce.stdout ce.message)
      (⟨testCase.id, false, env.elapsed, some ("Compilation failed: " ++ compileError),
        some (jsOr ce.stack compileError), some ce.stdout, env.now⟩, false)
    | none =>
      match env.runOutcome with
      | Except.ok (stdout, stderr) => (finishJUnit env testCase stdout stderr, true)
      | Except.error ex =>
        let stdout := ex.stdout
        let stderr := jsOr ex.stderr ex.message
        if stdout = "" ∧ stderr = "" then
          (⟨testCase.id, false, env.elapsed, some ("Test execution failed: " ++ ex.message),
            some (jsOr ex.stack stderr), some stdout, env.now⟩, true)
        else (finishJUnit env testCase stdout stderr, true)

/-- `executeJUnitTest` as the caller sees it. -/
def executeJUnitTest (env : JUnitEnv) (testCase : TestCase) : TestResult :=
  (executeJUnitTestI env testCase).1

/-- C8: a compilation failure short-circuits `executeJUnitTest`: the result is
failed, its error is the compiler diagnostic prefixed with "Compilation
failed: ", and the run command is never attempted — the result does not depend
on the run oracle at all (it is universally quantified here). -/
theorem c8_compile_failure_short_circuits (testCase : TestCase) (j : String)
    (ce : ExecFailure) (runOutcome : Except ExecFailure (String × String)) (elapsed now : Nat) :
    (executeJUnitTest ⟨some j, some ce, runOutcome, elapsed, now⟩ testCase).passed = false ∧
    (executeJUnitTest ⟨some j, some ce, runOutcome, elapsed, now⟩ testCase).error =
      some ("Compilation failed: " ++ jsOr ce.stderr (jsOr ce.stdout ce.message)) ∧
    (executeJUnitTestI ⟨some j, some ce, runOutcome, elapsed, now⟩ testCase).2 = false := by
  refine ⟨rfl, rfl, rfl⟩

/-! ## Closed-loop workflow (closedLoopWorkflow.ts: runClosedLoopWorkflow)

Oracles: the test generation call, the two executors (indexed by execution
pass: 0 is the initial pass, `k ≥ 1` the k-th re-execution), and one
`autoFixFailedTest` call per (pass, failing result) — which may also hand back
the updated stored test case used to refresh the local array under
`autoApplyFixes`. Thrown collaborator errors are `Except.error` values.
Ably publishes never throw (ablyService.publishEvent swallows errors), so the
trace below instruments the control flow unconditionally; it records the same
milestones the workflow publishes. -/

/-- Trace events mirroring the published workflow milestones. -/
inductive Event
  | started
  | stageChanged (s : Stage)
  | testGenerated (count : Nat)
  | testExecuted (passed : Nat) (failed : Nat) (isRetest : Bool)
  | progress (retry : Nat) (maxRetries : Nat) (failedCount : Nat)
  | fixGenerated (fixId : String)
  | completed
  | failed
deriving DecidableEq, Repr

/-- The configuration fields of `WorkflowOptions` that drive control flow. -/
structure WorkflowConfig where
  filePath : String
  testType : TestKind
  autoApplyFixes : Bool
  maxRetries : Nat
  enableAbly : Bool

/-- Collaborator oracles for one workflow run. -/
structure WorkflowEnv where
  gen : Except String (List TestCase)
  execJest : Nat → List TestCase → Except String (List TestResult)
  execJUnit : Nat → List TestCase → Except String (List TestResult)
  fix : Nat → TestResult → Except String (BugFix × Option TestCase)

/-- Dispatch on the configured test type, as at each execution site. -/
def execFor (cfg : WorkflowConfig) (env : WorkflowEnv) :
    Nat → List TestCase → Except String (List TestResult) :=
  if cfg.testType = TestKind.jest then env.execJest else env.execJUnit

/-- The currently failing subset of a result list. -/
def failingOf (rs : List TestResult) : List TestResult := rs.filter (fun r => !r.passed)

/-- `testCases[index] = updatedTestCase` after `findIndex` on the id. -/
def updateTestCaseInArray (tcs : List TestCase) (id : String) (utc : TestCase) : List TestCase :=
  match tcs.findIdx? (fun tc => tc.id == id) with
  | some i => tcs.set i utc
  | none => tcs

/-- One sweep of the `for (const failedResult of failedResults)` loop: each
fix attempt appends a `BugFix` on success (refreshing the test case array when
fixes are auto-applied) or appends the thrown message to `errors` on failure,
and always continues with the remaining items. -/
def fixPass (env : WorkflowEnv) (pass : Nat) (autoApply : Bool) :
    List TestResult → List TestCase → WorkflowState → List Event →
    List TestCase × WorkflowState × List Event
  | [], tcs, st, tr => (tcs, st, tr)
  | r :: rest, tcs, st, tr =>
    match env.fix pass r with
    | Except.ok bu =>
      let st' := { st with bugFixes := st.bugFixes ++ [bu.1] }
      let tr' := tr ++ [Event.fixGenerated bu.1.id]
      let tcs' :=
        if autoApply then
          match bu.2 with
          | some utc => updateTestCaseInArray tcs r.testCaseId utc
          | none => tcs
        else tcs
      fixPass env pass autoApply rest tcs' st' tr'
    | Except.error msg =>
      fixPass env pass autoApply rest tcs { st with errors := st.errors ++ [msg] } tr

/-- How the `while` loop was left: an early `return state` from the
all-passing branch, or falling through to the final status check. -/
inductive LoopExit
  | earlyReturn (st : WorkflowState)
  | fellThrough (st : WorkflowState)
deriving Repr

/-- The `while (retryCount < maxRetries && failedResults.length > 0)` loop.
`fuel` is `maxRetries - retryCount` and `pass` is `retryCount + 1`. Each
iteration runs one fix sweep; under `autoApplyFixes` it then re-executes all
test cases (stage `validating`), returns early on full pass, or recurses on
the new failing subset; otherwise it breaks after the single sweep. -/
def fixLoop (env : WorkflowEnv) (cfg : WorkflowConfig) :
    Nat → Nat → List TestCase → List TestResult → WorkflowState → List Event →
    Except (String × WorkflowState × List Event) (LoopExit × List Event)
  | 0, _, _, _, st, tr => Except.ok (LoopExit.fellThrough st, tr)
  | fuel + 1, pass, tcs, failed, st, tr =>
    if failed.isEmpty then Except.ok (LoopExit.fellThrough st, tr)
    else
      let tr1 := tr ++ [Event.progress pass cfg.maxRetries failed.length]
      let res := fixPass env pass cfg.autoApplyFixes failed tcs st tr1
      let tcs1 := res.1
      let st1 := res.2.1
      let tr2 := res.2.2
      if cfg.autoApplyFixes then
        let st2 := { st1 with stage := Stage.validating }
        let tr3 := tr2 ++ [Event.stageChanged Stage.validating]
        match execFor cfg env pass tcs1 with
        | Except.error msg => Except.error (msg, st2, tr3)
        | Except.ok retest =>
          let st3 := { st2 with testResults := retest }
          let failedNew := failingOf retest
          let tr4 := tr3 ++
            [Event.testExecuted (retest.length - failedNew.length) failedNew.length true]
          if failedNew.isEmpty then
            Except.ok (LoopExit.earlyReturn { st3 with stage := Stage.completed },
              tr4 ++ [Event.completed])
          else fixLoop env cfg fuel (pass + 1) tcs1 failedNew st3 tr4
      else Except.ok (LoopExit.fellThrough st1, tr2)

/-- The body of `runClosedLoopWorkflow` inside its `try`: errors carry the
state and trace at the throw point for the `catch` to patch. -/
def runBody (cfg : WorkflowConfig) (env : WorkflowEnv) :
    Except (String × WorkflowState × List Event) (WorkflowState × List Event) :=
  let st1 : WorkflowState := ⟨Stage.generating, [], [], [], []⟩
  let tr1 : List Event := [Event.started, Event.stageChanged Stage.generating]
  match env.gen with
  | Except.error msg => Except.error (msg, st1, tr1)
  | Except.ok tcs =>
    let st2 := { st1 with testCases := tcs }
    let tr2 := tr1 ++ [Event.testGenerated tcs.length]
    let st3 := { st2 with stage := Stage.executing }
    let tr3 := tr2 ++ [Event.stageChanged Stage.executing]
    match execFor cfg env 0 tcs with
    | Except.error msg => Except.error (msg, st3, tr3)
    | Except.ok results =>
      let st4 := { st3 with testResults := results }
      let failed0 := failingOf results
      let tr4 := tr3 ++
        [Event.testExecuted (results.length - failed0.length) failed0.length false]
      if failed0.isEmpty then
        Except.ok ({ st4 with stage := Stage.completed }, tr4 ++ [Event.completed])
      else
        let st5 := { st4 with stage := Stage.fixing }
        let tr5 := tr4 ++ [Event.stageChanged Stage.fixing]
        match fixLoop env cfg cfg.maxRetries 1 tcs failed0 st5 tr5 with
        | Except.error e => Except.error e
        | Except.ok (LoopExit.earlyReturn st, tr) => Except.ok (st, tr)
        | Except.ok (LoopExit.fellThrough st, tr) =>
          if (failingOf st.testResults).isEmpty then
            Except.ok ({ st with stage := Stage.completed }, tr ++ [Event.completed])
          else
            Except.ok ({ st with stage := Stage.failed }, tr ++ [Event.failed])

/-- `runClosedLoopWorkflow` with its trace: the `catch` block records the
thrown message, forces stage `failed`, and the function returns normally. -/
def runClosedLoopWorkflowT (cfg : WorkflowConfig) (env : WorkflowEnv) :
    WorkflowState × List Event :=
  match runBody cfg env with
  | Except.ok (st, tr) => (st, tr)
  | Except.error (msg, st, tr) =>
      ({ st with stage := Stage.failed, errors := st.errors ++ [msg] }, tr ++ [Event.failed])

/-- The returned `WorkflowState`. -/
def runClosedLoopWorkflow (cfg : WorkflowConfig) (env : WorkflowEnv) : WorkflowState :=
  (runClosedLoopWorkflowT cfg env).1

/-- Number of re-execution (`isRetest`) events in a trace. -/
def countRetests (tr : List Event) : Nat :=
  (tr.filter (fun e => match e with
    | Event.testExecuted _ _ true => true
    | _ => false)).length

/-- Number of fix-sweep (`workflow.progress`) events in a trace. -/
def countFixSweeps (tr : List Event) : Nat :=
  (tr.filter (fun e => match e with
    | Event.progress _ _ _ => true
    | _ => false)).length

/-- The `BugFix` a fix attempt yields, if it does not throw. -/
def fixOkOf (env : WorkflowEnv) (pass : Nat) (r : TestResult) : Option BugFix :=
  match env.fix pass r with
  | Except.ok bu => some bu.1
  | Except.error _ => none

/-- The message a fix attempt throws, if it throws. -/
def fixErrOf (env : WorkflowEnv) (pass : Nat) (r : TestResult) : Option String :=
  match env.fix pass r with
  | Except.ok _ => none
  | Except.error m => some m

/-- Full characterisation of one fix sweep: successful attempts append their
fixes in order, throwing attempts append their messages in order, everything
else in the state is untouched, and the trace grows by exactly one
`fixGenerated` event per successful attempt. -/
theorem fixPass_spec (env : WorkflowEnv) (pass : Nat) (autoApply : Bool)
    (failed : List TestResult) : ∀ (tcs : List TestCase) (st : WorkflowState) (tr : List Event),
    (fixPass env pass autoApply failed tcs st tr).2.1.bugFixes =
      st.bugFixes ++ failed.filterMap (fixOkOf env pass) ∧
    (fixPass env pass autoApply failed tcs st tr).2.1.errors =
      st.errors ++ failed.filterMap (fixErrOf env pass) ∧
    (fixPass env pass autoApply failed tcs st tr).2.1.stage = st.stage ∧
    (fixPass env pass autoApply failed tcs st tr).2.1.testResults = st.testResults ∧
    (fixPass env pass autoApply failed tcs st tr).2.1.testCases = st.testCases ∧
    (fixPass env pass autoApply failed tcs st tr).2.2 =
      tr ++ failed.filterMap
        (fun r => (fixOkOf env pass r).map (fun bf => Event.fixGenerated bf.id)) := by
  induction failed with
  | nil => intro tcs st tr; simp [fixPass]
  | cons r rest ih =>
    intro tcs st tr
    cases hf : env.fix pass r with
    | ok bu =>
      simp only [fixPass, hf]
      obtain ⟨h1, h2, h3, h4, h5, h6⟩ := ih
        (if autoApply then
          match bu.2 with
          | some utc => updateTestCaseInArray tcs r.testCaseId utc
          | none => tcs
         else tcs)
        { st with bugFixes := st.bugFixes ++ [bu.1] }
        (tr ++ [Event.fixGenerated bu.1.id])
      refine ⟨?_, ?_, ?_, ?_, ?_, ?_⟩ <;>
        simp [h1, h2, h3, h4, h5, h6, fixOkOf, fixErrOf, hf]
    | error m =>
      simp only [fixPass, hf]
      obtain ⟨h1, h2, h3, h4, h5, h6⟩ := ih tcs { st with errors := st.errors ++ [m] } tr
      refine ⟨?_, ?_, ?_, ?_, ?_, ?_⟩ <;>
        simp [h1, h2, h3, h4, h5, h6, fixOkOf, fixErrOf, hf]

/-- C6: per-item fix failures are isolated. Over one full sweep of the failing
results, every throwing fix attempt contributes exactly its message to
`errors` and no `BugFix`, every successful attempt contributes exactly its
`BugFix`, and both in input order — so one throwing item never stops the sweep
from processing all remaining items. -/
theorem c6_per_item_fix_failure_isolated (env : WorkflowEnv) (pass : Nat) (autoApply : Bool)
    (failed : List TestResult) (tcs : List TestCase) (st : WorkflowState) (tr : List Event) :
    (fixPass env pass autoApply failed tcs st tr).2.1.errors =
      st.errors ++ failed.filterMap (fixErrOf env pass) ∧
    (fixPass env pass autoApply failed tcs st tr).2.1.bugFixes =
      st.bugFixes ++ failed.filterMap (fixOkOf env pass) := by
  obtain ⟨h1, h2, _, _, _, _⟩ := fixPass_spec env pass autoApply failed tcs st tr
  exact ⟨h2, h1⟩

/-- C1: `runClosedLoopWorkflow` always returns a state rather than throwing;
a collaborator error thrown during generation or during an execution pass is
caught, appended to the returned state's errors, and forces stage `failed`.
The last conjunct covers every throw site: whatever error `runBody` surfaces
is recorded and the function still returns that patched state. -/
theorem c1_collaborator_errors_caught (cfg : WorkflowConfig) (env : WorkflowEnv) :
    (∀ msg, env.gen = Except.error msg →
      (runClosedLoopWorkflow cfg env).stage = Stage.failed ∧
      (runClosedLoopWorkflow cfg env).errors = [msg]) ∧
    (∀ tcs msg, env.gen = Except.ok tcs → execFor cfg env 0 tcs = Except.error msg →
      (runClosedLoopWorkflow cfg env).stage = Stage.failed ∧
      (runClosedLoopWorkflow cfg env).errors = [msg]) ∧
    (∀ msg st tr, runBody cfg env = Except.error (msg, st, tr) →
      (runClosedLoopWorkflow cfg env).stage = Stage.failed ∧
      (runClosedLoopWorkflow cfg env).errors = st.errors ++ [msg]) := by
  refine ⟨?_, ?_, ?_⟩
  · intro msg h
    simp [runClosedLoopWorkflow, runClosedLoopWorkflowT, runBody, h]
  · intro tcs msg hgen hex
    simp [runClosedLoopWorkflow, runClosedLoopWorkflowT, runBody, hgen, hex]
  · intro msg st tr h
    simp [runClosedLoopWorkflow, runClosedLoopWorkflowT, h]

/-- Witness environment whose generation call throws. -/
def envGenBoom : WorkflowEnv :=
  ⟨Except.error "boom", fun _ _ => Except.ok [], fun _ _ => Except.ok [],
   fun _ _ => Except.error "no fix"⟩

/-- Sample configuration for the workflow witnesses. -/
def cfgW : WorkflowConfig := ⟨"Calc.java", TestKind.jest, true, 2, true⟩

/-- Witness for C1: a generation error at a concrete run is recorded and the
run returns a `failed` state. -/
theorem c1_collaborator_errors_caught_witness :
    (runClosedLoopWorkflow cfgW envGenBoom).stage = Stage.failed ∧
    (runClosedLoopWorkflow cfgW envGenBoom).errors = ["boom"] :=
  (c1_collaborator_errors_caught cfgW envGenBoom).1 "boom" rfl

/-- C3: when the initial execution pass has zero failures the run completes
immediately: the returned state is exactly the completed state with the
generated cases and first-pass results, no `BugFix` and no error; no retest
happens and the fixing and validating stages are never entered. -/
theorem c3_all_pass_completes_immediately (cfg : WorkflowConfig) (env : WorkflowEnv)
    (tcs : List TestCase) (rs : List TestResult)
    (hgen : env.gen = Except.ok tcs)
    (hex : execFor cfg env 0 tcs = Except.ok rs)
    (hpass : failingOf rs = []) :
    runClosedLoopWorkflow cfg env = ⟨Stage.completed, tcs, rs, [], []⟩ ∧
    countRetests (runClosedLoopWorkflowT cfg env).2 = 0 ∧
    Event.stageChanged Stage.fixing ∉ (runClosedLoopWorkflowT cfg env).2 ∧
    Event.stageChanged Stage.validating ∉ (runClosedLoopWorkflowT cfg env).2 := by
  simp [runClosedLoopWorkflow, runClosedLoopWorkflowT, runBody, hgen, hex, hpass, countRetests]

/-- Witness environment whose single generated test passes at once. -/
def envAllPass : WorkflowEnv :=
  ⟨Except.ok [⟨"t1", "n", "d", TestKind.jest, "c", "f", "Calc.java", 0⟩],
   fun _ _ => Except.ok [⟨"t1", true, 1, none, none, none, 0⟩],
   fun _ _ => Except.ok [⟨"t1", true, 1, none, none, none, 0⟩],
   fun _ _ => Except.error "no fix"⟩

/-- Witness for C3 at a concrete all-passing run. -/
theorem c3_all_pass_completes_immediately_witness :
    runClosedLoopWorkflow cfgW envAllPass =
      ⟨Stage.completed, [⟨"t1", "n", "d", TestKind.jest, "c", "f", "Calc.java", 0⟩],
        [⟨"t1", true, 1, none, none, none, 0⟩], [], []⟩ ∧
    countRetests (runClosedLoopWorkflowT cfgW envAllPass).2 = 0 ∧
    Event.stageChanged Stage.fixing ∉ (runClosedLoopWorkflowT cfgW envAllPass).2 ∧
    Event.stageChanged Stage.validating ∉ (runClosedLoopWorkflowT cfgW envAllPass).2 :=
  c3_all_pass_completes_immediately cfgW envAllPass
    [⟨"t1", "n", "d", TestKind.jest, "c", "f", "Calc.java", 0⟩]
    [⟨"t1", true, 1, none, none, none, 0⟩] rfl rfl (by decide)

theorem countRetests_append (a b : List Event) :
    countRetests (a ++ b) = countRetests a + countRetests b := by
  simp [countRetests, List.filter_append]

theorem countFixSweeps_append (a b : List Event) :
    countFixSweeps (a ++ b) = countFixSweeps a + countFixSweeps b := by
  simp [countFixSweeps, List.filter_append]

theorem countRetests_fixEvents (env : WorkflowEnv) (pass : Nat) (l : List TestResult) :
    countRetests (l.filterMap
      (fun r => (fixOkOf env pass r).map (fun bf => Event.fixGenerated bf.id))) = 0 := by
  induction l with
  | nil => rfl
  | cons r rest ih =>
    simp only [List.filterMap_cons]
    cases h : fixOkOf env pass r with
    | none => exact ih
    | some bf => simpa [countRetests, List.filter_cons] using ih

theorem countFixSweeps_fixEvents (env : WorkflowEnv) (pass : Nat) (l : List TestResult) :
    countFixSweeps (l.filterMap
      (fun r => (fixOkOf env pass r).map (fun bf => Event.fixGenerated bf.id))) = 0 := by
  induction l with
  | nil => rfl
  | cons r rest ih =>
    simp only [List.filterMap_cons]
    cases h : fixOkOf env pass r with
    | none => exact ih
    | some bf => simpa [countFixSweeps, List.filter_cons] using ih

theorem fixErrOf_eq_some (env : WorkflowEnv) (p : Nat) (r : TestResult) (m : String)
    (h : fixErrOf env p r = some m) : env.fix p r = Except.error m := by
  unfold fixErrOf at h
  cases hf : env.fix p r with
  | ok bu => rw [hf] at h; simp at h
  | error m' => rw [hf] at h; simp at h; rw [h]

/-- Exhaustion of the fix loop: when fixes are auto-applied and every
re-execution keeps at least one failure, the loop consumes all its fuel —
one fix sweep and one retest per unit — and falls through with failures still
present, its errors extending the incoming ones only by thrown fix messages. -/
theorem fixLoop_exhausts (env : WorkflowEnv) (cfg : WorkflowConfig)
    (hauto : cfg.autoApplyFixes = true)
    (hexec : ∀ k tcs, 1 ≤ k →
      ∃ rs, execFor cfg env k tcs = Except.ok rs ∧ failingOf rs ≠ []) :
    ∀ (fuel pass : Nat) (tcs : List TestCase) (failed : List TestResult)
      (st : WorkflowState) (tr : List Event),
      failed ≠ [] → 1 ≤ pass → failingOf st.testResults ≠ [] →
      ∃ st' tr',
        fixLoop env cfg fuel pass tcs failed st tr =
          Except.ok (LoopExit.fellThrough st', tr') ∧
        countRetests tr' = countRetests tr + fuel ∧
        countFixSweeps tr' = countFixSweeps tr + fuel ∧
        failingOf st'.testResults ≠ [] ∧
        (∀ m ∈ st'.errors, m ∈ st.errors ∨ ∃ k r, env.fix k r = Except.error m) := by
  intro fuel
  induction fuel with
  | zero =>
    intro pass tcs failed st tr _ _ hres
    exact ⟨st, tr, rfl, by omega, by omega, hres, fun m hm => Or.inl hm⟩
  | succ fuel ih =>
    intro pass tcs failed st tr hfail hpass hres
    have hne : failed.isEmpty = false := by
      cases failed with
      | nil => exact absurd rfl hfail
      | cons a l => rfl
    simp only [fixLoop, hne, Bool.false_eq_true, if_false, hauto, if_true]
    set FP := fixPass env pass true failed tcs st
      (tr ++ [Event.progress pass cfg.maxRetries failed.length]) with hFP
    obtain ⟨hbf, herr1, hstage1, hresults1, hcases1, htr1⟩ :=
      fixPass_spec env pass true failed tcs st
        (tr ++ [Event.progress pass cfg.maxRetries failed.length])
    rw [← hFP] at hbf herr1 hstage1 hresults1 hcases1 htr1
    obtain ⟨rs, hex, hrs⟩ := hexec pass FP.1 hpass
    rw [hex]
    have hrsne : (failingOf rs).isEmpty = false := by
      cases h : failingOf rs with
      | nil => exact absurd h hrs
      | cons a l => rfl
    simp only [hrsne, Bool.false_eq_true, if_false]
    obtain ⟨st', tr', heq, hc1, hc2, hres', herr'⟩ :=
      ih (pass + 1) FP.1 (failingOf rs)
        { FP.2.1 with stage := Stage.validating, testResults := rs }
        (FP.2.2 ++ [Event.stageChanged Stage.validating] ++
          [Event.testExecuted (rs.length - (failingOf rs).length) (failingOf rs).length true])
        hrs (by omega) (by simpa using hrs)
    refine ⟨st', tr', ?_, ?_, ?_, hres', ?_⟩
    · exact heq
    · rw [hc1, countRetests_append, countRetests_append, htr1, countRetests_append,
        countRetests_append, countRetests_fixEvents]
      simp [countRetests]
      omega
    · rw [hc2, countFixSweeps_append, countFixSweeps_append, htr1, countFixSweeps_append,
        countFixSweeps_append, countFixSweeps_fixEvents]
      simp [countFixSweeps]
      omega
    · intro m hm
      rcases herr' m hm with h | h
      · simp only [herr1] at h
        rcases List.mem_append.mp h with h2 | h2
        · exact Or.inl h2
        · obtain ⟨r, _, hfr⟩ := List.mem_filterMap.mp h2
          exact Or.inr ⟨pass, r, fixErrOf_eq_some env pass r m hfr⟩
      · exact Or.inr h

/-- C4: with `autoApplyFixes` and failures persisting on every re-execution,
the run performs exactly `maxRetries` fix-and-revalidate passes (one
`progress` sweep event and one retest event each), ends with stage `failed`,
and every accumulated error string stems from a thrown per-item fix attempt —
exhausting the retries appends nothing by itself. -/
theorem c4_retry_exhaustion (cfg : WorkflowConfig) (env : WorkflowEnv)
    (tcs : List TestCase) (rs : List TestResult)
    (hauto : cfg.autoApplyFixes = true)
    (hgen : env.gen = Except.ok tcs)
    (hex0 : execFor cfg env 0 tcs = Except.ok rs)
    (hfail0 : failingOf rs ≠ [])
    (hexec : ∀ k tcs', 1 ≤ k →
      ∃ rs', execFor cfg env k tcs' = Except.ok rs' ∧ failingOf rs' ≠ []) :
    (runClosedLoopWorkflow cfg env).stage = Stage.failed ∧
    countRetests (runClosedLoopWorkflowT cfg env).2 = cfg.maxRetries ∧
    countFixSweeps (runClosedLoopWorkflowT cfg env).2 = cfg.maxRetries ∧
    ∀ m ∈ (runClosedLoopWorkflow cfg env).errors, ∃ k r, env.fix k r = Except.error m := by
  have hne : (failingOf rs).isEmpty = false := by
    cases h : failingOf rs with
    | nil => exact absurd h hfail0
    | cons a l => rfl
  obtain ⟨st', tr', heq, hc1, hc2, hres', herr'⟩ :=
    fixLoop_exhausts env cfg hauto hexec cfg.maxRetries 1 tcs (failingOf rs)
      { stage := Stage.fixing, testCases := tcs, testResults := rs, bugFixes := [], errors := [] }
      ([Event.started, Event.stageChanged Stage.generating] ++
        [Event.testGenerated tcs.length] ++ [Event.stageChanged Stage.executing] ++
        [Event.testExecuted (rs.length - (failingOf rs).length) (failingOf rs).length false] ++
        [Event.stageChanged Stage.fixing])
      hfail0 (by omega) (by simpa using hfail0)
  have hst'ne : (failingOf st'.testResults).isEmpty = false := by
    cases h : failingOf st'.testResults with
    | nil => exact absurd h hres'
    | cons a l => rfl
  have hT : runClosedLoopWorkflowT cfg env =
      ({ stage := Stage.failed, testCases := st'.testCases, testResults := st'.testResults,
         bugFixes := st'.bugFixes, errors := st'.errors }, tr' ++ [Event.failed]) := by
    unfold runClosedLoopWorkflowT runBody
    simp only [hgen, hex0, hne, Bool.false_eq_true, if_false, heq, hst'ne]
  refine ⟨?_, ?_, ?_, ?_⟩
  · simp [runClosedLoopWorkflow, hT]
  · rw [hT, countRetests_append, hc1]
    simp [countRetests, List.filter_append, List.filter]
  · rw [hT, countFixSweeps_append, hc2]
    simp [countFixSweeps, List.filter_append, List.filter]
  · intro m hm
    simp only [runClosedLoopWorkflow, hT] at hm
    rcases herr' m hm with h | h
    · simp at h
    · exact h

/-- Concrete objects for the C4 witness: one generated case that fails on
every pass, and a fix oracle that always produces a fix. -/
def tcW4 : TestCase := ⟨"t1", "n", "d", TestKind.jest, "c", "f", "Calc.java", 0⟩

def rfW4 : TestResult := ⟨"t1", false, 1, some "boom", none, none, 0⟩

def bfW4 : BugFix := ⟨"b1", "t1", "t1", "fix", "o", "n", "Calc.java", 0, 1, false, none, false⟩

def envC4 : WorkflowEnv :=
  ⟨Except.ok [tcW4], fun _ _ => Except.ok [rfW4], fun _ _ => Except.ok [rfW4],
   fun _ _ => Except.ok (bfW4, none)⟩

/-- Witness for C4 at `maxRetries = 2`: exactly two sweeps and two retests,
terminal stage `failed`. -/
theorem c4_retry_exhaustion_witness :
    (runClosedLoopWorkflow cfgW envC4).stage = Stage.failed ∧
    countRetests (runClosedLoopWorkflowT cfgW envC4).2 = 2 ∧
    countFixSweeps (runClosedLoopWorkflowT cfgW envC4).2 = 2 := by
  have h := c4_retry_exhaustion cfgW envC4 [tcW4] [rfW4] rfl rfl rfl (by decide)
    (fun k tcs' hk => ⟨[rfW4], rfl, by decide⟩)
  exact ⟨h.1, h.2.1, h.2.2.1⟩

theorem filterMap_length_all_some {α β : Type} (f : α → Option β) (l : List α)
    (h : ∀ x ∈ l, (f x).isSome) : (l.filterMap f).length = l.length := by
  induction l with
  | nil => rfl
  | cons a t ih =>
    simp only [List.filterMap_cons]
    cases hf : f a with
    | none =>
      have := h a (List.mem_cons_self a t)
      rw [hf] at this
      simp at this
    | some b =>
      simp only [List.length_cons]
      rw [ih (fun x hx => h x (List.mem_cons_of_mem a hx))]

theorem mem_fixEvents {env : WorkflowEnv} {pass : Nat} {l : List TestResult} {e : Event}
    (he : e ∈ l.filterMap
      (fun r => (fixOkOf env pass r).map (fun bf => Event.fixGenerated bf.id))) :
    ∃ s, e = Event.fixGenerated s := by
  obtain ⟨r, _, hr⟩ := List.mem_filterMap.mp he
  cases h : fixOkOf env pass r with
  | none => rw [h] at hr; simp at hr
  | some bf => rw [h] at hr; simp at hr; exact ⟨bf.id, hr.symm⟩

theorem validating_not_mem_fixEvents (env : WorkflowEnv) (pass : Nat) (l : List TestResult) :
    Event.stageChanged Stage.validating ∉ l.filterMap
      (fun r => (fixOkOf env pass r).map (fun bf => Event.fixGenerated bf.id)) := by
  intro h
  obtain ⟨s, hs⟩ := mem_fixEvents h
  simp at hs

/-- C5 (amended: requires `maxRetries ≥ 1`): with `autoApplyFixes = false` and
a failing initial pass, exactly one fix sweep runs — one `BugFix` per failing
case when no per-item fix attempt throws — the results are never re-executed
(the returned `testResults` are still the initial ones, no retest event, the
validating stage is never entered), and the run ends at stage `failed`
because the failures necessarily remain. -/
theorem c5_manual_mode_single_pass (cfg : WorkflowConfig) (env : WorkflowEnv)
    (tcs : List TestCase) (rs : List TestResult)
    (hauto : cfg.autoApplyFixes = false)
    (hmr : 1 ≤ cfg.maxRetries)
    (hgen : env.gen = Except.ok tcs)
    (hex0 : execFor cfg env 0 tcs = Except.ok rs)
    (hfail0 : failingOf rs ≠ [])
    (hfixok : ∀ r ∈ failingOf rs, (fixOkOf env 1 r).isSome) :
    (runClosedLoopWorkflow cfg env).stage = Stage.failed ∧
    (runClosedLoopWorkflow cfg env).testResults = rs ∧
    (runClosedLoopWorkflow cfg env).bugFixes.length = (failingOf rs).length ∧
    countRetests (runClosedLoopWorkflowT cfg env).2 = 0 ∧
    countFixSweeps (runClosedLoopWorkflowT cfg env).2 = 1 ∧
    Event.stageChanged Stage.validating ∉ (runClosedLoopWorkflowT cfg env).2 := by
  have hne : (failingOf rs).isEmpty = false := by
    cases h : failingOf rs with
    | nil => exact absurd h hfail0
    | cons a l => rfl
  obtain ⟨n, hn⟩ : ∃ n, cfg.maxRetries = n + 1 := ⟨cfg.maxRetries - 1, by omega⟩
  obtain ⟨hbf, herr1, hstage1, hresults1, hcases1, htr1⟩ :=
    fixPass_spec env 1 false (failingOf rs) tcs
      { stage := Stage.fixing, testCases := tcs, testResults := rs, bugFixes := [], errors := [] }
      ([Event.started, Event.stageChanged Stage.generating] ++
        [Event.testGenerated tcs.length] ++ [Event.stageChanged Stage.executing] ++
        [Event.testExecuted (rs.length - (failingOf rs).length) (failingOf rs).length false] ++
        [Event.stageChanged Stage.fixing] ++
        [Event.progress 1 cfg.maxRetries (failingOf rs).length])
  have hfpne : (failingOf
      ((fixPass env 1 false (failingOf rs) tcs
        { stage := Stage.fixing, testCases := tcs, testResults := rs, bugFixes := [], errors := [] }
        ([Event.started, Event.stageChanged Stage.generating] ++
          [Event.testGenerated tcs.length] ++ [Event.stageChanged Stage.executing] ++
          [Event.testExecuted (rs.length - (failingOf rs).length) (failingOf rs).length false] ++
          [Event.stageChanged Stage.fixing] ++
          [Event.progress 1 cfg.maxRetries (failingOf rs).length])).2.1.testResults)).isEmpty
      = false := by
    rw [hresults1]
    exact hne
  have hT : runClosedLoopWorkflowT cfg env =
      (let FP := fixPass env 1 false (failingOf rs) tcs
        { stage := Stage.fixing, testCases := tcs, testResults := rs, bugFixes := [], errors := [] }
        ([Event.started, Event.stageChanged Stage.generating] ++
          [Event.testGenerated tcs.length] ++ [Event.stageChanged Stage.executing] ++
          [Event.testExecuted (rs.length - (failingOf rs).length) (failingOf rs).length false] ++
          [Event.stageChanged Stage.fixing] ++
          [Event.progress 1 cfg.maxRetries (failingOf rs).length])
       ({ stage := Stage.failed, testCases := FP.2.1.testCases,
          testResults := FP.2.1.testResults, bugFixes := FP.2.1.bugFixes,
          errors := FP.2.1.errors }, FP.2.2 ++ [Event.failed])) := by
    unfold runClosedLoopWorkflowT runBody
    rw [hn]
    simp only [hgen, hex0, hne, Bool.false_eq_true, if_false, fixLoop, hauto, if_true,
      ← hn, hfpne]
  refine ⟨?_, ?_, ?_, ?_, ?_, ?_⟩
  · show (runClosedLoopWorkflowT cfg env).1.stage = Stage.failed
    rw [hT]
  · show (runClosedLoopWorkflowT cfg env).1.testResults = rs
    rw [hT]
    simpa using hresults1
  · show (runClosedLoopWorkflowT cfg env).1.bugFixes.length = (failingOf rs).length
    rw [hT]
    simp only [hbf, List.nil_append]
    exact filterMap_length_all_some _ _ hfixok
  · show countRetests (runClosedLoopWorkflowT cfg env).2 = 0
    rw [hT]
    simp only [htr1, countRetests_append, countRetests_fixEvents]
    simp [countRetests, List.filter]
  · show countFixSweeps (runClosedLoopWorkflowT cfg env).2 = 1
    rw [hT]
    simp only [htr1, countFixSweeps_append, countFixSweeps_fixEvents]
    simp [countFixSweeps, List.filter]
  · show Event.stageChanged Stage.validating ∉ (runClosedLoopWorkflowT cfg env).2
    rw [hT]
    simp only [htr1]
    simp [List.mem_append, validating_not_mem_fixEvents]

/-- Concrete objects for the C5 counterexample and witness. -/
def c5tc : TestCase := ⟨"t1", "n", "d", TestKind.jest, "c", "f", "Calc.java", 0⟩

def c5res : TestResult := ⟨"t1", false, 1, some "boom", none, none, 0⟩

def c5bf : BugFix := ⟨"b1", "t1", "t1", "fix", "o", "n", "Calc.java", 0, 1, false, none, false⟩

def c5env : WorkflowEnv :=
  ⟨Except.ok [c5tc], fun _ _ => Except.ok [c5res], fun _ _ => Except.ok [c5res],
   fun _ _ => Except.ok (c5bf, none)⟩

/-- Manual-mode configuration with a zero retry budget. -/
def c5cfgZero : WorkflowConfig := ⟨"Calc.java", TestKind.jest, false, 0, true⟩

/-- Manual-mode configuration with the default retry budget. -/
def c5cfgW : WorkflowConfig := ⟨"Calc.java", TestKind.jest, false, 3, true⟩

/-- Counterexample to C5 as stated: with `autoApplyFixes = false` and
`maxRetries = 0`, one failing initial result and a fix oracle that never
throws, the run does enter the fixing stage (the stage-change event is
emitted) yet zero fixes are generated — not one per failing case. -/
theorem c5_counterexample_maxRetries_zero :
    c5cfgZero.autoApplyFixes = false ∧
    Event.stageChanged Stage.fixing ∈ (runClosedLoopWorkflowT c5cfgZero c5env).2 ∧
    c5env.fix 1 c5res = Except.ok (c5bf, none) ∧
    (failingOf (runClosedLoopWorkflow c5cfgZero c5env).testResults).length = 1 ∧
    (runClosedLoopWorkflow c5cfgZero c5env).bugFixes = [] :=
  ⟨rfl, by decide, rfl, by decide, by decide⟩

/-- Witness for the amended C5 at `maxRetries = 3`: a single sweep, one fix
for the one failing case, no retest, stage `failed`. -/
theorem c5_manual_mode_single_pass_witness :
    (runClosedLoopWorkflow c5cfgW c5env).stage = Stage.failed ∧
    (runClosedLoopWorkflow c5cfgW c5env).testResults = [c5res] ∧
    (runClosedLoopWorkflow c5cfgW c5env).bugFixes.length = (failingOf [c5res]).length ∧
    countRetests (runClosedLoopWorkflowT c5cfgW c5env).2 = 0 ∧
    countFixSweeps (runClosedLoopWorkflowT c5cfgW c5env).2 = 1 ∧
    Event.stageChanged Stage.validating ∉ (runClosedLoopWorkflowT c5cfgW c5env).2 :=
  c5_manual_mode_single_pass c5cfgW c5env [c5tc] [c5res] rfl (by decide) rfl rfl
    (by decide) (by decide)

/-- Concrete objects for the C6 witness: a fix oracle that throws on one
result and succeeds on the other. -/
def c6resErr : TestResult := ⟨"bad", false, 1, some "e1", none, none, 0⟩

def c6resOk : TestResult := ⟨"t1", false, 1, some "e2", none, none, 0⟩

def c6envW : WorkflowEnv :=
  ⟨Except.ok [], fun _ _ => Except.ok [], fun _ _ => Except.ok [],
   fun _ r => if r.testCaseId = "bad" then Except.error "boom" else Except.ok (c5bf, none)⟩

def c6stW : WorkflowState := ⟨Stage.fixing, [c5tc], [c6resErr, c6resOk], [], []⟩

/-- Witness for C6 at a concrete sweep where the first item's fix throws and
the second succeeds. -/
theorem c6_per_item_fix_failure_isolated_witness :
    (fixPass c6envW 1 false [c6resErr, c6resOk] [c5tc] c6stW []).2.1.errors =
      c6stW.errors ++ [c6resErr, c6resOk].filterMap (fixErrOf c6envW 1) ∧
    (fixPass c6envW 1 false [c6resErr, c6resOk] [c5tc] c6stW []).2.1.bugFixes =
      c6stW.bugFixes ++ [c6resErr, c6resOk].filterMap (fixOkOf c6envW 1) :=
  c6_per_item_fix_failure_isolated c6envW 1 false [c6resErr, c6resOk] [c5tc] c6stW []

/-- Witness for C8 at a concrete compilation failure. -/
theorem c8_compile_failure_short_circuits_witness :
    (executeJUnitTest ⟨some "junit.jar", some ⟨"", "err: bad code", "msg", "stk"⟩,
        Except.ok ("out", ""), 5, 9⟩ c5tc).passed = false ∧
    (executeJUnitTest ⟨some "junit.jar", some ⟨"", "err: bad code", "msg", "stk"⟩,
        Except.ok ("out", ""), 5, 9⟩ c5tc).error =
      some ("Compilation failed: " ++
        jsOr (ExecFailure.stderr ⟨"", "err: bad code", "msg", "stk"⟩)
          (jsOr (ExecFailure.stdout ⟨"", "err: bad code", "msg", "stk"⟩)
            (ExecFailure.message ⟨"", "err: bad code", "msg", "stk"⟩))) ∧
    (executeJUnitTestI ⟨some "junit.jar", some ⟨"", "err: bad code", "msg", "stk"⟩,
        Except.ok ("out", ""), 5, 9⟩ c5tc).2 = false :=
  c8_compile_failure_short_circuits c5tc "junit.jar" ⟨"", "err: bad code", "msg", "stk"⟩
    (Except.ok ("out", "")) 5 9

/-- Witness for C9 at a concrete call sequence storing twice under one id. -/
theorem c9_store_retains_latest_result_per_id_witness :
    getTestResult ([(5, c6resOk), (6, ⟨"t1", true, 2, none, none, none, 0⟩),
        (7, c6resErr)].foldl applyStoreCall []) "t1" =
      match ([(5, c6resOk), (6, (⟨"t1", true, 2, none, none, none, 0⟩ : TestResult)),
          (7, c6resErr)].reverse.find? (fun c => c.2.testCaseId == "t1")) with
      | some c => some { c.2 with timestamp := c.1 }
      | none => getTestResult [] "t1" :=
  c9_store_retains_latest_result_per_id []
    [(5, c6resOk), (6, ⟨"t1", true, 2, none, none, none, 0⟩), (7, c6resErr)] "t1"

/-- Witness for C10 at a concrete successful command with unparseable stdout
and empty stderr. -/
theorem c10_unparseable_stdout_defaults_to_pass_witness :
    (executeJestTest ⟨Except.ok ("not json", ""), none, 4, 8⟩ c5tc).passed = true ∧
    (executeJestTest ⟨Except.ok ("not json", ""), none, 4, 8⟩ c5tc).error = none :=
  c10_unparseable_stdout_defaults_to_pass c5tc "not json" 4 8

end TestGen
